import Mathlib

set_option autoImplicit false

namespace Whittle

/-!
Shallow embedding of the Whittle dictionary-lifecycle engine:
`whittle/src/managers/dictionary_manager.py` (DictionaryManager,
OpenFOAMDictionaryClassifier, FoamDictionaryExtractor),
`whittle/src/managers/plugin_registry.py` (PluginRegistry), and the
command loops of `whittle/src/ai_assistant.py` and
`whittle/mesh/ai_assistant.py`.

Strings are modelled as Lean `String`/`List Char`; the Python regular
expressions used by the extractor are each deterministic on their inputs
(their subexpression character classes are pairwise disjoint, so greedy or
lazy matching with backtracking collapses to a single scan), and are
embedded as the explicit scanning functions below.  Character classes are
the ASCII readings of `\w`, `\s`, `[a-zA-Z]`.
-/

/-- The backquote character that forms Markdown code fences. -/
def backquote : Char := Char.ofNat 96

/-- ASCII letter, the class `[a-zA-Z]` of the generic-fence pattern. -/
def isAsciiLetter (c : Char) : Bool :=
  (97 ≤ c.toNat && c.toNat ≤ 122) || (65 ≤ c.toNat && c.toNat ≤ 90)

/-- ASCII digit. -/
def isDigitChar (c : Char) : Bool :=
  48 ≤ c.toNat && c.toNat ≤ 57

/-- The regex class `\w` (ASCII reading): letters, digits, underscore. -/
def isWordChar (c : Char) : Bool :=
  isAsciiLetter c || isDigitChar c || c == '_'

/-- The regex class `\s` (ASCII reading): space, tab, newline, CR, VT, FF. -/
def isSpaceChar (c : Char) : Bool :=
  c == ' ' || c == '\t' || c == '\n' || c == '\r' || c.toNat == 11 || c.toNat == 12

/-- `startsWithL pat l` : `pat` is an initial segment of `l`. -/
def startsWithL : List Char → List Char → Bool
  | [], _ => true
  | _ :: _, [] => false
  | p :: ps, c :: cs => p == c && startsWithL ps cs

/-- A triple backquote, the fence delimiter. -/
def fence3 : List Char := [backquote, backquote, backquote]

/-- Length of the longest initial segment of the list satisfying `q`. -/
def countLeading (q : Char → Bool) : List Char → Nat
  | [] => 0
  | c :: cs => if q c then countLeading q cs + 1 else 0

/-- Split the input at the first closing fence: returns the characters
before the first occurrence of three backquotes together with the rest of
the input after that occurrence (the lazy `(.*?)` up to a literal fence,
under `re.DOTALL`).  `none` when no closing fence exists. -/
def splitAtClose : List Char → Option (List Char × List Char)
  | [] => none
  | c :: cs =>
    if startsWithL fence3 (c :: cs) then
      some ([], cs.drop 2)
    else
      match splitAtClose cs with
      | some (b, r) => some (c :: b, r)
      | none => none

/-- Fuel-indexed scan for fenced regions whose opening fence carries
exactly the given tag followed by a newline, collecting the bodies of the
non-overlapping, left-to-right matches of the Python pattern
````<tag>\n(.*?)``` ` under `re.DOTALL`.  The scan advances by at least
one character per step, so any fuel exceeding the input length is enough
(`findTaggedBlocksF_fuel_irrel`); fuel exists only to make the recursion
structural. -/
def findTaggedBlocksF (tag : List Char) : Nat → List Char → List (List Char)
  | 0, _ => []
  | _ + 1, [] => []
  | fuel + 1, c :: cs =>
    if startsWithL (fence3 ++ tag ++ ['\n']) (c :: cs) then
      match splitAtClose ((c :: cs).drop (fence3 ++ tag ++ ['\n']).length) with
      | some (b, r) => b :: findTaggedBlocksF tag fuel r
      | none => findTaggedBlocksF tag fuel cs
    else findTaggedBlocksF tag fuel cs

/-- All bodies of fenced regions tagged with exactly `tag`: the matches of
````<tag>\n(.*?)``` ` under `re.DOTALL`, left to right, non-overlapping. -/
def findTaggedBlocks (tag : List Char) (l : List Char) : List (List Char) :=
  findTaggedBlocksF tag (l.length + 1) l

/-- Fuel-indexed scan for fenced regions carrying any (possibly empty)
alphabetic tag followed by a newline: the matches of the Python fallback
pattern ````[a-zA-Z]*\n(.*?)``` ` under `re.DOTALL`.  As with
`findTaggedBlocksF`, any fuel exceeding the input length is enough. -/
def findAnyBlocksF : Nat → List Char → List (List Char)
  | 0, _ => []
  | _ + 1, [] => []
  | fuel + 1, c :: cs =>
    if startsWithL fence3 (c :: cs) then
      let afterTag := (cs.drop 2).drop (countLeading isAsciiLetter (cs.drop 2))
      if startsWithL ['\n'] afterTag then
        match splitAtClose (afterTag.drop 1) with
        | some (b, r) => b :: findAnyBlocksF fuel r
        | none => findAnyBlocksF fuel cs
      else findAnyBlocksF fuel cs
    else findAnyBlocksF fuel cs

/-- All bodies of fenced regions with any alphabetic tag. -/
def findAnyBlocks (l : List Char) : List (List Char) :=
  findAnyBlocksF (l.length + 1) l

/-- Try to match `object\s+(\w+);` at the head of the input and return the
captured group.  The classes of `object`, `\s`, `\w` and `;` are pairwise
disjoint at every junction, so the backtracking match is this single
deterministic scan. -/
def matchObjectAt (l : List Char) : Option (List Char) :=
  if startsWithL ("object".data) l then
    let r1 := l.drop 6
    let ns := countLeading isSpaceChar r1
    if ns = 0 then none
    else
      let r2 := r1.drop ns
      let nw := countLeading isWordChar r2
      if nw = 0 then none
      else
        match r2.drop nw with
        | ';' :: _ => some (r2.take nw)
        | _ => none
  else none

/-- Leftmost match of `re.search(r"object\s+(\w+);", body)`: the captured
name, scanning start positions left to right. -/
def findObjectNameL : List Char → Option (List Char)
  | [] => none
  | c :: cs =>
    match matchObjectAt (c :: cs) with
    | some n => some n
    | none => findObjectNameL cs

/-- String version of `findObjectNameL`. -/
def findObjectName (s : String) : Option String :=
  (findObjectNameL s.data).map (fun l => ⟨l⟩)

/-- `d[k] = v` on a Python `dict` modelled as an association list in key
insertion order: an existing key keeps its position and gets the new
value, a new key is appended at the end. -/
def insertAssoc {α : Type} (k : String) (v : α) : List (String × α) → List (String × α)
  | [] => [(k, v)]
  | (k', v') :: rest =>
    if k' = k then (k', v) :: rest else (k', v') :: insertAssoc k v rest

/-- `d.get(k)` on the association-list model of a Python `dict`. -/
def lookupAssoc {α : Type} (k : String) : List (String × α) → Option α
  | [] => none
  | (k', v) :: rest => if k' = k then some v else lookupAssoc k rest

/-- One iteration of the accumulation loop of
`FoamDictionaryExtractor.extract_dictionaries`: search the block body for
`object\s+(\w+);`; when found, bind the captured name to the body in the
result dict; otherwise drop the body. -/
def dictStep (d : List (String × String)) (body : String) : List (String × String) :=
  match findObjectName body with
  | some n => insertAssoc n body d
  | none => d

/-- The accumulation loop of `FoamDictionaryExtractor.extract_dictionaries`
over all matched block bodies. -/
def buildDict (bodies : List String) : List (String × String) :=
  bodies.foldl dictStep []

/-- `FoamDictionaryExtractor.extract_dictionaries`
(`whittle/src/managers/dictionary_manager.py`): try the solver-specific
fence tag first; if no such block exists, fall back to fenced regions with
any alphabetic tag; then build the name-to-content dict. -/
def extract_dictionaries (solver_name : String) (content : String) : List (String × String) :=
  let ms := findTaggedBlocks solver_name.data content.data
  let ms' := if ms.isEmpty then findAnyBlocks content.data else ms
  buildDict (ms'.map (fun l => ⟨l⟩))

/-- `FoamDictionaryExtractor.extract_dictionaries`
(`whittle/mesh/ai_assistant.py`): only lists the `foam`-tagged fenced
regions — no generic fallback in the mesh variant. -/
def extract_dictionaries_mesh (content : String) : List (String × String) :=
  buildDict ((findTaggedBlocks "foam".data content.data).map (fun l => ⟨l⟩))

/-- `DictionaryType` (`whittle/src/interfaces/dictionary_interfaces.py`). -/
inductive DictionaryType where
  | SYSTEM
  | CONSTANT
  | INITIAL_CONDITION
  | UNKNOWN
deriving DecidableEq

/-- `OpenFOAMDictionaryClassifier.system_files`. -/
def system_files : List String :=
  ["blockMeshDict", "snappyHexMeshDict", "controlDict", "fvSchemes", "fvSolution"]

/-- `OpenFOAMDictionaryClassifier.initial_condition_files`. -/
def initial_condition_files : List String :=
  ["U", "p", "k", "epsilon", "omega", "nut", "alpha.water", "alpha.air"]

/-- `OpenFOAMDictionaryClassifier.get_dictionary_type`. -/
def get_dictionary_type (dict_name : String) : DictionaryType :=
  if dict_name ∈ system_files then DictionaryType.SYSTEM
  else if dict_name ∈ initial_condition_files then DictionaryType.INITIAL_CONDITION
  else DictionaryType.CONSTANT

/-- The `DictionaryManager.required_files` ledger: one flag per required
name, in the dict's fixed insertion order
`controlDict, fvSchemes, fvSolution, blockMeshDict, snappyHexMeshDict, U, p`. -/
structure RequiredFiles where
  controlDict : Bool
  fvSchemes : Bool
  fvSolution : Bool
  blockMeshDict : Bool
  snappyHexMeshDict : Bool
  U : Bool
  p : Bool
deriving DecidableEq

/-- The ledger as created in `DictionaryManager.__init__`: every flag false. -/
def initRequiredFiles : RequiredFiles :=
  ⟨false, false, false, false, false, false, false⟩

/-- `self.required_files.items()` in insertion order. -/
def requiredItems (r : RequiredFiles) : List (String × Bool) :=
  [("controlDict", r.controlDict), ("fvSchemes", r.fvSchemes),
   ("fvSolution", r.fvSolution), ("blockMeshDict", r.blockMeshDict),
   ("snappyHexMeshDict", r.snappyHexMeshDict), ("U", r.U), ("p", r.p)]

/-- Flag lookup in the ledger by name (`self.required_files[name]` /
`name in self.required_files`, `none` for names that are not keys). -/
def requiredFlag (name : String) (r : RequiredFiles) : Option Bool :=
  lookupAssoc name (requiredItems r)

/-- The loop body of `DictionaryManager.get_missing_required_files`: walk
the items in insertion order; at a mesh-pair name, if neither mesh flag is
set, append the combined entry and `break` (ending the whole loop);
otherwise skip the pair name; for any other name append it when its flag
is false. -/
def missingLoop (r : RequiredFiles) : List (String × Bool) → List String
  | [] => []
  | (name, written) :: rest =>
    if name = "blockMeshDict" ∨ name = "snappyHexMeshDict" then
      if !(r.blockMeshDict || r.snappyHexMeshDict) then
        ["blockMeshDict or snappyHexMeshDict"]
      else missingLoop r rest
    else if !written then name :: missingLoop r rest
    else missingLoop r rest

/-- `DictionaryManager.get_missing_required_files` (identical in
`whittle/src/managers/dictionary_manager.py` and
`whittle/mesh/ai_assistant.py`). -/
def get_missing_required_files (r : RequiredFiles) : List String :=
  missingLoop r (requiredItems r)

/-- `self.required_files[name] = True` guarded by
`if name in self.required_files`. -/
def setRequiredFlag (name : String) (r : RequiredFiles) : RequiredFiles :=
  if name = "controlDict" then { r with controlDict := true }
  else if name = "fvSchemes" then { r with fvSchemes := true }
  else if name = "fvSolution" then { r with fvSolution := true }
  else if name = "blockMeshDict" then { r with blockMeshDict := true }
  else if name = "snappyHexMeshDict" then { r with snappyHexMeshDict := true }
  else if name = "U" then { r with U := true }
  else if name = "p" then { r with p := true }
  else r

/-- The mutable state of a `DictionaryManager`: the required-files ledger
and the set of names written so far. -/
structure DictionaryManagerState where
  required_files : RequiredFiles
  written_files : List String
deriving DecidableEq

/-- Fresh manager state from `DictionaryManager.__init__`. -/
def initManagerState : DictionaryManagerState :=
  ⟨initRequiredFiles, []⟩

/-- The per-block state update of `DictionaryManager.process_ai_response`
after a successful write: add the name to `written_files` (a set) and flip
its ledger flag when it is a required name. -/
def applyBlock (st : DictionaryManagerState) (b : String × String) : DictionaryManagerState :=
  { required_files := setRequiredFlag b.1 st.required_files,
    written_files :=
      if b.1 ∈ st.written_files then st.written_files else st.written_files ++ [b.1] }

/-- The loop of `DictionaryManager.process_ai_response` over the extracted
blocks.  Writing is the injected `IDictionaryWriter`; `writeOk name content`
says whether `write_dictionary` succeeds (classification before the write
is pure and total, so it is not a failure point).  A raised filesystem
error aborts the loop: the state mutated so far is kept and the failing
block is reported; that block contributes no state update. -/
def processBlocks (writeOk : String → String → Bool) :
    DictionaryManagerState → List (String × String) →
    DictionaryManagerState × Option (String × String)
  | st, [] => (st, none)
  | st, b :: rest =>
    if writeOk b.1 b.2 then processBlocks writeOk (applyBlock st b) rest
    else (st, some b)

/-- `DictionaryManager.process_ai_response` with the plugin-variant
extractor: extract the dictionaries, then write and record each in order. -/
def process_ai_response (writeOk : String → String → Bool) (solver_name : String)
    (st : DictionaryManagerState) (response : String) :
    DictionaryManagerState × Option (String × String) :=
  processBlocks writeOk st (extract_dictionaries solver_name response)

/-- `DictionaryManager.process_ai_response` with the mesh-variant extractor. -/
def process_ai_response_mesh (writeOk : String → String → Bool)
    (st : DictionaryManagerState) (response : String) :
    DictionaryManagerState × Option (String × String) :=
  processBlocks writeOk st (extract_dictionaries_mesh response)

/-- Python `str.lower()` on one character (ASCII range, the range solver
identifiers live in). -/
def pyLowerChar (c : Char) : Char :=
  if 65 ≤ c.toNat ∧ c.toNat ≤ 90 then Char.ofNat (c.toNat + 32) else c

/-- Python `str.lower()`. -/
def pyLower (s : String) : String :=
  ⟨s.data.map pyLowerChar⟩

/-- `PluginRegistry._plugins` modelled as an association list in insertion
order; values are the registered plugin classes, kept abstract. -/
def register_plugin {α : Type} (reg : List (String × α)) (solver_name : String)
    (plugin_class : α) : List (String × α) :=
  insertAssoc (pyLower solver_name) plugin_class reg

/-- `PluginRegistry.get_plugin`: look the query up lower-cased; when no
plugin matches, raise `ValueError` with a message listing the registered
solver names. -/
def get_plugin {α : Type} (reg : List (String × α)) (solver_name : String) :
    Except String α :=
  match lookupAssoc (pyLower solver_name) reg with
  | some plugin_class => Except.ok plugin_class
  | none =>
    Except.error
      ("No plugin found for solver '" ++ solver_name ++ "'. " ++
       "Available solvers: " ++ String.intercalate ", " (reg.map (fun kv => kv.1)))

/-- Outcome of one iteration of an assistant `run` loop: `finished` leaves
the loop (reaching the terminal state that prints the next-steps summary),
`looping` returns to awaiting input, `crashed` means an exception from a
dictionary write escaped the loop (neither `run` has a try/except). -/
inductive StepOutcome where
  | finished
  | looping
  | crashed
deriving DecidableEq

/-- The missing-files remediation prompt of `AIAssistant.run`
(`whittle/src/ai_assistant.py`). -/
def srcMissingPrompt (solverTitle : String) (missing : List String) : String :=
  "Based on the case requirements we discussed, please create the following " ++
  solverTitle ++ " configuration files:\n" ++ String.intercalate ", " missing ++
  "\n\nFor each file, provide the complete content in appropriate code blocks."

/-- The missing-files remediation prompt of `AIAssistant.run`
(`whittle/mesh/ai_assistant.py`, `generate` branch). -/
def meshGeneratePrompt (missing : List String) : String :=
  "Please create the following required OpenFOAM dictionary files that are still missing:\n" ++
  String.intercalate ", " missing ++
  "\n\nFor each file, provide the complete dictionary content in ```foam code blocks."

/-- One iteration of the `while True` loop of `AIAssistant.run` in
`whittle/src/ai_assistant.py`, as a function of the manager state and the
user's input line; `oracle` is the conversation manager's prompt-to-reply
behaviour.  `done` breaks out unconditionally; `run` first fills gaps via a
remediation prompt and, when gaps remain, `continue`s; in every non-`done`
path the iteration ends by sending the raw input as a conversational turn
and processing the reply. -/
def srcLoopBody (writeOk : String → String → Bool) (solver_name solverTitle : String)
    (oracle : String → String) (st : DictionaryManagerState) (user_input : String) :
    DictionaryManagerState × StepOutcome :=
  if pyLower user_input = "done" then (st, StepOutcome.finished)
  else if pyLower user_input = "run" then
    let missing := get_missing_required_files st.required_files
    if missing.isEmpty then
      match process_ai_response writeOk solver_name st (oracle user_input) with
      | (st2, some _) => (st2, StepOutcome.crashed)
      | (st2, none) => (st2, StepOutcome.looping)
    else
      match process_ai_response writeOk solver_name st
        (oracle (srcMissingPrompt solverTitle missing)) with
      | (st1, some _) => (st1, StepOutcome.crashed)
      | (st1, none) =>
        let missing1 := get_missing_required_files st1.required_files
        if missing1.isEmpty then
          match process_ai_response writeOk solver_name st1 (oracle user_input) with
          | (st2, some _) => (st2, StepOutcome.crashed)
          | (st2, none) => (st2, StepOutcome.looping)
        else (st1, StepOutcome.looping)
  else
    match process_ai_response writeOk solver_name st (oracle user_input) with
    | (st2, some _) => (st2, StepOutcome.crashed)
    | (st2, none) => (st2, StepOutcome.looping)

/-- One iteration of the `while True` loop of `AIAssistant.run` in
`whittle/mesh/ai_assistant.py`: `done` re-checks
`get_missing_required_files` and `continue`s while it is non-empty,
breaking only when it is empty; `run` does the same check and on success
runs the mesh and breaks; `generate` sends the remediation prompt;
anything else is a conversational turn. -/
def meshLoopBody (writeOk : String → String → Bool) (oracle : String → String)
    (st : DictionaryManagerState) (user_input : String) :
    DictionaryManagerState × StepOutcome :=
  if pyLower user_input = "done" then
    if (get_missing_required_files st.required_files).isEmpty then
      (st, StepOutcome.finished)
    else (st, StepOutcome.looping)
  else if pyLower user_input = "run" then
    if (get_missing_required_files st.required_files).isEmpty then
      (st, StepOutcome.finished)
    else (st, StepOutcome.looping)
  else if pyLower user_input = "generate" then
    match process_ai_response_mesh writeOk st
      (oracle (meshGeneratePrompt (get_missing_required_files st.required_files))) with
    | (st1, some _) => (st1, StepOutcome.crashed)
    | (st1, none) => (st1, StepOutcome.looping)
  else
    match process_ai_response_mesh writeOk st (oracle user_input) with
    | (st1, some _) => (st1, StepOutcome.crashed)
    | (st1, none) => (st1, StepOutcome.looping)

/-! ## Helper lemmas -/

theorem splitAtClose_length :
    ∀ (l b r : List Char), splitAtClose l = some (b, r) → r.length < l.length := by
  intro l
  induction l with
  | nil => intro b r h; simp [splitAtClose] at h
  | cons c cs ih =>
    intro b r h
    unfold splitAtClose at h
    split at h
    · have hr : r = cs.drop 2 := by
        injection h with h'
        exact (congrArg Prod.snd h').symm
      subst hr
      simp only [List.length_drop, List.length_cons]
      omega
    · cases hsc : splitAtClose cs with
      | none => rw [hsc] at h; exact absurd h (by simp)
      | some br =>
        obtain ⟨b', r'⟩ := br
        rw [hsc] at h
        have hr : r = r' := by
          injection h with h'
          exact (congrArg Prod.snd h').symm
        subst hr
        have := ih b' r hsc
        simp only [List.length_cons]
        omega

theorem findTaggedBlocksF_fuel_irrel (tag : List Char) :
    ∀ (f1 : Nat) (f2 : Nat) (l : List Char), l.length < f1 → l.length < f2 →
      findTaggedBlocksF tag f1 l = findTaggedBlocksF tag f2 l := by
  intro f1
  induction f1 with
  | zero => intro f2 l h1 _; omega
  | succ f1' ih =>
    intro f2 l h1 h2
    match f2, l with
    | 0, l => omega
    | f2' + 1, [] => rfl
    | f2' + 1, c :: cs =>
      simp only [List.length_cons] at h1 h2
      show findTaggedBlocksF tag (f1' + 1) (c :: cs) = findTaggedBlocksF tag (f2' + 1) (c :: cs)
      unfold findTaggedBlocksF
      split
      · cases hs : splitAtClose ((c :: cs).drop (fence3 ++ tag ++ ['\n']).length) with
        | none => exact ih f2' cs (by omega) (by omega)
        | some br =>
          obtain ⟨b, r⟩ := br
          have hr := splitAtClose_length _ _ _ hs
          rw [List.length_drop] at hr
          simp only [List.length_cons] at hr
          simp only
          rw [ih f2' r (by omega) (by omega)]
      · exact ih f2' cs (by omega) (by omega)

theorem findAnyBlocksF_fuel_irrel :
    ∀ (f1 : Nat) (f2 : Nat) (l : List Char), l.length < f1 → l.length < f2 →
      findAnyBlocksF f1 l = findAnyBlocksF f2 l := by
  intro f1
  induction f1 with
  | zero => intro f2 l h1 _; omega
  | succ f1' ih =>
    intro f2 l h1 h2
    match f2, l with
    | 0, l => omega
    | f2' + 1, [] => rfl
    | f2' + 1, c :: cs =>
      simp only [List.length_cons] at h1 h2
      show findAnyBlocksF (f1' + 1) (c :: cs) = findAnyBlocksF (f2' + 1) (c :: cs)
      unfold findAnyBlocksF
      have hafter : ((cs.drop 2).drop (countLeading isAsciiLetter (cs.drop 2))).length ≤ cs.length := by
        simp only [List.length_drop]; omega
      split
      · dsimp only
        split
        · cases hs : splitAtClose (((cs.drop 2).drop (countLeading isAsciiLetter (cs.drop 2))).drop 1) with
          | none => exact ih f2' cs (by omega) (by omega)
          | some br =>
            obtain ⟨b, r⟩ := br
            have hr := splitAtClose_length _ _ _ hs
            rw [List.length_drop] at hr
            simp only
            rw [ih f2' r (by omega) (by omega)]
        · exact ih f2' cs (by omega) (by omega)
      · exact ih f2' cs (by omega) (by omega)

theorem lookupAssoc_insertAssoc_self {α : Type} (k : String) (v : α) :
    ∀ d, lookupAssoc k (insertAssoc k v d) = some v := by
  intro d
  induction d with
  | nil => simp [insertAssoc, lookupAssoc]
  | cons kv rest ih =>
    obtain ⟨k', v'⟩ := kv
    unfold insertAssoc
    by_cases h : k' = k
    · simp [h, lookupAssoc]
    · simp [h, lookupAssoc, ih]

theorem lookupAssoc_insertAssoc_ne {α : Type} (k m : String) (v : α) (h : m ≠ k) :
    ∀ d, lookupAssoc k (insertAssoc m v d) = lookupAssoc k d := by
  intro d
  induction d with
  | nil => simp [insertAssoc, lookupAssoc, h]
  | cons kv rest ih =>
    obtain ⟨k', v'⟩ := kv
    unfold insertAssoc
    by_cases h2 : k' = m
    · subst h2
      rw [if_pos rfl]
      unfold lookupAssoc
      rw [if_neg (fun hh => h hh), if_neg (fun hh => h hh)]
    · rw [if_neg h2]
      unfold lookupAssoc
      by_cases h3 : k' = k
      · rw [if_pos h3, if_pos h3]
      · rw [if_neg h3, if_neg h3, ih]

theorem foldl_dictStep_filter :
    ∀ (bodies : List String) (d : List (String × String)),
      (bodies.filter (fun b => (findObjectName b).isSome)).foldl dictStep d
        = bodies.foldl dictStep d := by
  intro bodies
  induction bodies with
  | nil => intro d; rfl
  | cons b rest ih =>
    intro d
    by_cases h : (findObjectName b).isSome
    · simp only [List.filter, h, List.foldl]
      exact ih (dictStep d b)
    · have hn : findObjectName b = none := by
        cases hh : findObjectName b with
        | none => rfl
        | some m => rw [hh] at h; simp at h
      have hstep : dictStep d b = d := by unfold dictStep; rw [hn]
      simp only [List.filter, h, List.foldl, hstep]
      exact ih d

theorem lookupAssoc_foldl_dictStep (n : String) :
    ∀ (l : List String) (d : List (String × String)),
      (∀ b ∈ l, findObjectName b ≠ some n) →
      lookupAssoc n (l.foldl dictStep d) = lookupAssoc n d := by
  intro l
  induction l with
  | nil => intro d _; rfl
  | cons b rest ih =>
    intro d hno
    have hb := hno b (by simp)
    simp only [List.foldl]
    rw [ih _ (fun b' hb' => hno b' (by simp [hb']))]
    unfold dictStep
    cases hh : findObjectName b with
    | none => rfl
    | some m =>
      have hmn : m ≠ n := fun he => hb (by rw [hh, he])
      exact lookupAssoc_insertAssoc_ne n m b hmn d

/-! ## Claim theorems -/

/-- C1 — refuted on the code (code bug): when both mesh flags are false,
the `break` in `get_missing_required_files` leaves the loop entirely, so
the later required names `U` and `p` are skipped.  On the fresh ledger (no
file received, in particular not `p`) the returned list omits `"p"`, and
likewise when `p` alone among the non-mesh names is missing; only when a
mesh flag is true does a false `p` flag surface as `"p"`. -/
theorem c1_break_skips_p_when_mesh_missing :
    get_missing_required_files initRequiredFiles
        = ["controlDict", "fvSchemes", "fvSolution", "blockMeshDict or snappyHexMeshDict"]
    ∧ (get_missing_required_files initRequiredFiles).count "p" = 0
    ∧ (get_missing_required_files ⟨true, true, true, false, false, true, false⟩).count "p" = 0
    ∧ get_missing_required_files ⟨true, true, true, false, true, true, false⟩ = ["p"] := by
  refine ⟨rfl, rfl, rfl, rfl⟩

/-- C3 — refuted on the code (code bug): the extractor's capture group is
`(\w+)` and `\w` does not match a dot, so the declaration
`object alpha.water;` matches nowhere and its block is dropped: no entry
under any name is produced, although the classifier's own
`initial_condition_files` set lists `alpha.water` as a supported name. -/
theorem c3_dot_named_object_is_dropped :
    findObjectName "object alpha.water;\n" = none
    ∧ extract_dictionaries "foam" "```foam\nobject alpha.water;\n```" = []
    ∧ "alpha.water" ∈ initial_condition_files := by
  refine ⟨rfl, rfl, by decide⟩

/-- C4 — confirmed: `get_missing_required_files` lists the combined entry
`"blockMeshDict or snappyHexMeshDict"` exactly once when both mesh flags
are false and not at all otherwise, and never lists either bare mesh
name. -/
theorem c4_mesh_pair_combined_entry (r : RequiredFiles) :
    ((get_missing_required_files r).count "blockMeshDict or snappyHexMeshDict"
        = if r.blockMeshDict || r.snappyHexMeshDict then 0 else 1)
    ∧ (get_missing_required_files r).count "blockMeshDict" = 0
    ∧ (get_missing_required_files r).count "snappyHexMeshDict" = 0 := by
  obtain ⟨a, b, c, d, e, f, g⟩ := r
  cases a <;> cases b <;> cases c <;> cases d <;> cases e <;> cases f <;> cases g <;> decide

/-- C9 — confirmed: a fenced block whose body has no `object <name>;`
declaration contributes nothing to the extracted mapping (filtering such
bodies out does not change the result, and extraction is a total
function, so it cannot raise); when several blocks declare the same name
the mapping keeps one entry whose content is the last such block's body;
and on a concrete reply with two `object controlDict;` blocks the result
is exactly one entry holding the second body. -/
theorem c9_unnamed_dropped_and_last_wins :
    (∀ bodies : List String,
      buildDict (bodies.filter (fun b => (findObjectName b).isSome)) = buildDict bodies)
    ∧ (∀ (l1 : List String) (b : String) (l2 : List String) (n : String),
        findObjectName b = some n → (∀ b' ∈ l2, findObjectName b' ≠ some n) →
        lookupAssoc n (buildDict (l1 ++ b :: l2)) = some b)
    ∧ extract_dictionaries "foam" "```foam\nno declaration in here\n```" = []
    ∧ extract_dictionaries "foam"
        "```foam\nobject controlDict;\nA\n```\nmid\n```foam\nobject controlDict;\nB\n```"
        = [("controlDict", "object controlDict;\nB\n")] := by
  refine ⟨?_, ?_, rfl, rfl⟩
  · intro bodies
    exact foldl_dictStep_filter bodies []
  · intro l1 b l2 n hb hno
    unfold buildDict
    rw [List.foldl_append]
    simp only [List.foldl]
    rw [lookupAssoc_foldl_dictStep n l2 _ hno]
    unfold dictStep
    rw [hb]
    exact lookupAssoc_insertAssoc_self n b _

theorem c9_unnamed_dropped_and_last_wins_witness :
    lookupAssoc "controlDict"
        (buildDict ["object controlDict;\nA\n", "object controlDict;\nB\n"])
      = some "object controlDict;\nB\n" :=
  c9_unnamed_dropped_and_last_wins.2.1 ["object controlDict;\nA\n"]
    "object controlDict;\nB\n" [] "controlDict" rfl (by simp)

/-- C7 — confirmed: `extract_dictionaries` builds its mapping from the
solver-tagged fenced blocks whenever at least one exists, and exactly when
none exists it builds it from the fenced blocks with any (possibly empty)
alphabetic tag instead. -/
theorem c7_solver_tag_first_then_any_tag (solver_name content : String) :
    (findTaggedBlocks solver_name.data content.data = [] →
      extract_dictionaries solver_name content
        = buildDict ((findAnyBlocks content.data).map (fun l => ⟨l⟩)))
    ∧ (findTaggedBlocks solver_name.data content.data ≠ [] →
      extract_dictionaries solver_name content
        = buildDict ((findTaggedBlocks solver_name.data content.data).map (fun l => ⟨l⟩))) := by
  constructor
  · intro h
    unfold extract_dictionaries
    rw [h]
    rfl
  · intro h
    unfold extract_dictionaries
    dsimp only
    have hne : (findTaggedBlocks solver_name.data content.data).isEmpty = false := by
      cases hh : findTaggedBlocks solver_name.data content.data with
      | nil => exact absurd hh h
      | cons x xs => rfl
    rw [hne]
    simp

theorem c7_solver_tag_first_then_any_tag_witness :
    extract_dictionaries "foam" "```python\nobject U;\n```"
        = buildDict ((findAnyBlocks "```python\nobject U;\n```".data).map (fun l => ⟨l⟩))
    ∧ extract_dictionaries "foam" "```python\nobject U;\n```" = [("U", "object U;\n")]
    ∧ extract_dictionaries "foam" "```foam\nobject p;\n```"
        = buildDict ((findTaggedBlocks "foam".data "```foam\nobject p;\n```".data).map (fun l => ⟨l⟩)) :=
  ⟨(c7_solver_tag_first_then_any_tag "foam" "```python\nobject U;\n```").1 rfl,
   rfl,
   (c7_solver_tag_first_then_any_tag "foam" "```foam\nobject p;\n```").2 (by decide)⟩

/-- C8 — confirmed: the classifier never returns `UNKNOWN`; the system
set maps to `SYSTEM`, the initial-condition set to `INITIAL_CONDITION`,
and every other name to `CONSTANT`. -/
theorem c8_classifier_never_unknown (name : String) :
    get_dictionary_type name ≠ DictionaryType.UNKNOWN
    ∧ (name ∈ system_files → get_dictionary_type name = DictionaryType.SYSTEM)
    ∧ (name ∈ initial_condition_files →
        get_dictionary_type name = DictionaryType.INITIAL_CONDITION)
    ∧ (name ∉ system_files → name ∉ initial_condition_files →
        get_dictionary_type name = DictionaryType.CONSTANT) := by
  refine ⟨?_, ?_, ?_, ?_⟩
  · unfold get_dictionary_type
    split_ifs <;> simp
  · intro h
    unfold get_dictionary_type
    rw [if_pos h]
  · intro h
    have hs : name ∉ system_files := by
      intro hs
      revert h
      fin_cases hs <;> decide
    unfold get_dictionary_type
    rw [if_neg hs, if_pos h]
  · intro h1 h2
    unfold get_dictionary_type
    rw [if_neg h1, if_neg h2]

theorem c8_classifier_never_unknown_witness :
    get_dictionary_type "fvSchemes" = DictionaryType.SYSTEM
    ∧ get_dictionary_type "alpha.water" = DictionaryType.INITIAL_CONDITION
    ∧ get_dictionary_type "transportProperties" = DictionaryType.CONSTANT :=
  ⟨(c8_classifier_never_unknown "fvSchemes").2.1 (by decide),
   (c8_classifier_never_unknown "alpha.water").2.2.1 (by decide),
   (c8_classifier_never_unknown "transportProperties").2.2.2 (by decide) (by decide)⟩

/-! ## Ledger-flag lemmas -/

theorem setRequiredFlag_field_cases (m : String) (r : RequiredFiles) :
    ((setRequiredFlag m r).controlDict = r.controlDict ∨ (setRequiredFlag m r).controlDict = true)
    ∧ ((setRequiredFlag m r).fvSchemes = r.fvSchemes ∨ (setRequiredFlag m r).fvSchemes = true)
    ∧ ((setRequiredFlag m r).fvSolution = r.fvSolution ∨ (setRequiredFlag m r).fvSolution = true)
    ∧ ((setRequiredFlag m r).blockMeshDict = r.blockMeshDict ∨ (setRequiredFlag m r).blockMeshDict = true)
    ∧ ((setRequiredFlag m r).snappyHexMeshDict = r.snappyHexMeshDict ∨ (setRequiredFlag m r).snappyHexMeshDict = true)
    ∧ ((setRequiredFlag m r).U = r.U ∨ (setRequiredFlag m r).U = true)
    ∧ ((setRequiredFlag m r).p = r.p ∨ (setRequiredFlag m r).p = true) := by
  unfold setRequiredFlag
  split_ifs <;> simp

theorem requiredFlag_setRequiredFlag_cases (n m : String) (r : RequiredFiles) :
    requiredFlag n (setRequiredFlag m r) = requiredFlag n r
    ∨ requiredFlag n (setRequiredFlag m r) = some true := by
  obtain ⟨h1, h2, h3, h4, h5, h6, h7⟩ := setRequiredFlag_field_cases m r
  simp only [requiredFlag, requiredItems, lookupAssoc]
  split_ifs
  · exact h1.elim (fun h => Or.inl (by rw [h])) (fun h => Or.inr (by rw [h]))
  · exact h2.elim (fun h => Or.inl (by rw [h])) (fun h => Or.inr (by rw [h]))
  · exact h3.elim (fun h => Or.inl (by rw [h])) (fun h => Or.inr (by rw [h]))
  · exact h4.elim (fun h => Or.inl (by rw [h])) (fun h => Or.inr (by rw [h]))
  · exact h5.elim (fun h => Or.inl (by rw [h])) (fun h => Or.inr (by rw [h]))
  · exact h6.elim (fun h => Or.inl (by rw [h])) (fun h => Or.inr (by rw [h]))
  · exact h7.elim (fun h => Or.inl (by rw [h])) (fun h => Or.inr (by rw [h]))
  · exact Or.inl rfl

theorem requiredFlag_setRequiredFlag_self (n : String) (r : RequiredFiles) :
    requiredFlag n (setRequiredFlag n r) = (requiredFlag n r).map (fun _ => true) := by
  simp only [requiredFlag, requiredItems, lookupAssoc]
  split_ifs with g1 g2 g3 g4 g5 g6 g7
  · subst g1; simp [setRequiredFlag]
  · subst g2; simp [setRequiredFlag]
  · subst g3; simp [setRequiredFlag]
  · subst g4; simp [setRequiredFlag]
  · subst g5; simp [setRequiredFlag]
  · subst g6; simp [setRequiredFlag]
  · subst g7; simp [setRequiredFlag]
  · simp

theorem requiredFlag_applyBlock_mono (n : String) (st : DictionaryManagerState)
    (b : String × String) (h : requiredFlag n st.required_files = some true) :
    requiredFlag n (applyBlock st b).required_files = some true := by
  unfold applyBlock
  rcases requiredFlag_setRequiredFlag_cases n b.1 st.required_files with hc | hc <;>
    simp only [hc, h]

theorem requiredFlag_applyBlock_ne_false (n : String) (st : DictionaryManagerState)
    (b : String × String) (h : requiredFlag n st.required_files ≠ some false) :
    requiredFlag n (applyBlock st b).required_files ≠ some false := by
  unfold applyBlock
  rcases requiredFlag_setRequiredFlag_cases n b.1 st.required_files with hc | hc
  · simp only [hc]
    exact h
  · simp only [hc]
    simp

theorem requiredFlag_foldl_applyBlock_ne_false (n : String) :
    ∀ (l : List (String × String)) (st : DictionaryManagerState),
      requiredFlag n st.required_files ≠ some false →
      requiredFlag n (l.foldl applyBlock st).required_files ≠ some false := by
  intro l
  induction l with
  | nil => intro st h; exact h
  | cons b rest ih =>
    intro st h
    exact ih (applyBlock st b) (requiredFlag_applyBlock_ne_false n st b h)

theorem requiredFlag_applyBlock_self_ne_false (st : DictionaryManagerState)
    (b : String × String) :
    requiredFlag b.1 (applyBlock st b).required_files ≠ some false := by
  unfold applyBlock
  simp only
  rw [requiredFlag_setRequiredFlag_self]
  cases requiredFlag b.1 st.required_files <;> simp

theorem written_applyBlock_mono (a : String) (st : DictionaryManagerState)
    (b : String × String) (h : a ∈ st.written_files) :
    a ∈ (applyBlock st b).written_files := by
  unfold applyBlock
  split_ifs <;> simp [h]

theorem written_foldl_applyBlock_mono (a : String) :
    ∀ (l : List (String × String)) (st : DictionaryManagerState),
      a ∈ st.written_files → a ∈ (l.foldl applyBlock st).written_files := by
  intro l
  induction l with
  | nil => intro st h; exact h
  | cons b rest ih =>
    intro st h
    exact ih (applyBlock st b) (written_applyBlock_mono a st b h)

theorem written_applyBlock_self (st : DictionaryManagerState) (b : String × String) :
    b.1 ∈ (applyBlock st b).written_files := by
  unfold applyBlock
  split_ifs with h <;> simp [h]

theorem processBlocks_append_fail (writeOk : String → String → Bool)
    (b : String × String) (post : List (String × String)) (hb : writeOk b.1 b.2 = false) :
    ∀ (pre : List (String × String)) (st : DictionaryManagerState),
      (∀ x ∈ pre, writeOk x.1 x.2 = true) →
      processBlocks writeOk st (pre ++ b :: post) = (pre.foldl applyBlock st, some b) := by
  intro pre
  induction pre with
  | nil =>
    intro st _
    simp only [List.nil_append, List.foldl_nil]
    unfold processBlocks
    rw [hb]
    simp
  | cons y rest ih =>
    intro st hpre
    have hy : writeOk y.1 y.2 = true := hpre y (by simp)
    simp only [List.cons_append, List.foldl_cons]
    unfold processBlocks
    rw [hy]
    simp only [if_true]
    exact ih (applyBlock st y) (fun x hx => hpre x (by simp [hx]))

/-! ## Claim theorems (continued) -/

/-- C5 — confirmed: when the extractor yields the blocks `pre ++ b :: post`
and every write in `pre` succeeds while the write of `b` raises, processing
aborts at `b`: the final manager state is exactly the per-block fold of the
state updates over `pre` (so ledger updates are committed immediately per
block), every earlier block's name is in `written_files` and its ledger
flag is not left false, the failing block contributes no update, and the
blocks of `post` are never processed. -/
theorem c5_write_failure_fail_fast (writeOk : String → String → Bool)
    (solver_name response : String) (st : DictionaryManagerState)
    (pre : List (String × String)) (b : String × String) (post : List (String × String))
    (hex : extract_dictionaries solver_name response = pre ++ b :: post)
    (hpre : ∀ x ∈ pre, writeOk x.1 x.2 = true)
    (hb : writeOk b.1 b.2 = false) :
    process_ai_response writeOk solver_name st response = (pre.foldl applyBlock st, some b)
    ∧ (∀ x ∈ pre, x.1 ∈ (pre.foldl applyBlock st).written_files)
    ∧ (∀ x ∈ pre, requiredFlag x.1 (pre.foldl applyBlock st).required_files ≠ some false) := by
  refine ⟨?_, ?_, ?_⟩
  · unfold process_ai_response
    rw [hex]
    exact processBlocks_append_fail writeOk b post hb pre st hpre
  · intro x hx
    clear hex hpre
    induction pre generalizing st with
    | nil => simp at hx
    | cons y rest ih =>
      rcases List.mem_cons.mp hx with hxy | hxr
      · subst hxy
        simp only [List.foldl_cons]
        exact written_foldl_applyBlock_mono x.1 rest (applyBlock st x)
          (written_applyBlock_self st x)
      · simp only [List.foldl_cons]
        exact ih (applyBlock st y) hxr
  · intro x hx
    clear hex hpre
    induction pre generalizing st with
    | nil => simp at hx
    | cons y rest ih =>
      rcases List.mem_cons.mp hx with hxy | hxr
      · subst hxy
        simp only [List.foldl_cons]
        exact requiredFlag_foldl_applyBlock_ne_false x.1 rest (applyBlock st x)
          (requiredFlag_applyBlock_self_ne_false st x)
      · simp only [List.foldl_cons]
        exact ih (applyBlock st y) hxr

theorem c5_write_failure_fail_fast_witness :
    process_ai_response
        (fun name _ => name ≠ "fvSchemes")
        "foam"
        initManagerState
        "```foam\nobject controlDict;\nA\n```\n```foam\nobject fvSchemes;\nB\n```\n```foam\nobject p;\nC\n```"
      = (applyBlock initManagerState ("controlDict", "object controlDict;\nA\n"),
         some ("fvSchemes", "object fvSchemes;\nB\n")) :=
  (c5_write_failure_fail_fast
    (fun name _ => name ≠ "fvSchemes") "foam"
    "```foam\nobject controlDict;\nA\n```\n```foam\nobject fvSchemes;\nB\n```\n```foam\nobject p;\nC\n```"
    initManagerState
    [("controlDict", "object controlDict;\nA\n")]
    ("fvSchemes", "object fvSchemes;\nB\n")
    [("p", "object p;\nC\n")]
    (by decide) (by decide) (by decide)).1

/-- C6 — confirmed: ledger flags are monotone.  `process_ai_response` only
ever sets required-file flags to true, so once a flag is true, no sequence
of further calls (any responses, any write outcomes) resets it. -/
theorem c6_ledger_flags_monotone (writeOk : String → String → Bool)
    (solver_name : String) (responses : List String) (st : DictionaryManagerState)
    (n : String) (h : requiredFlag n st.required_files = some true) :
    requiredFlag n
        ((responses.foldl
            (fun s response => (process_ai_response writeOk solver_name s response).1)
            st).required_files)
      = some true := by
  induction responses generalizing st with
  | nil => exact h
  | cons response rest ih =>
    simp only [List.foldl_cons]
    refine ih _ ?_
    unfold process_ai_response
    generalize extract_dictionaries solver_name response = blocks
    induction blocks generalizing st with
    | nil => exact h
    | cons b bs ihb =>
      unfold processBlocks
      by_cases hw : writeOk b.1 b.2 = true
      · rw [hw]
        simp only [if_true]
        exact ihb (applyBlock st b) (requiredFlag_applyBlock_mono n st b h)
      · rw [Bool.not_eq_true] at hw
        rw [hw]
        simp only [Bool.false_eq_true, if_false]
        exact h

theorem c6_ledger_flags_monotone_witness :
    requiredFlag "p"
        ((["no fenced blocks in this reply"].foldl
            (fun s response => (process_ai_response (fun _ _ => true) "foam" s response).1)
            ⟨⟨false, false, false, false, false, false, true⟩, ["p"]⟩).required_files)
      = some true :=
  c6_ledger_flags_monotone (fun _ _ => true) "foam" ["no fenced blocks in this reply"]
    ⟨⟨false, false, false, false, false, false, true⟩, ["p"]⟩ "p" (by decide)

/-- C2 — as stated the claim fails on the plugin-variant orchestrator
(`whittle/src/ai_assistant.py`): its `done` branch breaks out of the loop
unconditionally, reaching the terminal next-steps summary even though
`get_missing_required_files` is non-empty (here: four entries on the fresh
state). -/
theorem c2_src_done_finishes_with_missing_counterexample :
    srcLoopBody (fun _ _ => true) "openfoam" "Openfoam" (fun _ => "")
        initManagerState "done"
      = (initManagerState, StepOutcome.finished)
    ∧ (get_missing_required_files initManagerState.required_files).length = 4 := by
  refine ⟨rfl, rfl⟩

/-- C2 (amended) — the mesh-variant orchestrator
(`whittle/mesh/ai_assistant.py`) satisfies the claim: on input `done`
(case-insensitively) it reaches the terminal state exactly when
`get_missing_required_files` is empty, and otherwise reports and returns
to awaiting input with the manager state untouched. -/
theorem c2_mesh_done_requires_completeness (writeOk : String → String → Bool)
    (oracle : String → String) (st : DictionaryManagerState) (user_input : String)
    (h : pyLower user_input = "done") :
    (get_missing_required_files st.required_files = [] →
      meshLoopBody writeOk oracle st user_input = (st, StepOutcome.finished))
    ∧ (get_missing_required_files st.required_files ≠ [] →
      meshLoopBody writeOk oracle st user_input = (st, StepOutcome.looping)) := by
  constructor
  · intro hm
    unfold meshLoopBody
    rw [h, hm]
    simp
  · intro hm
    unfold meshLoopBody
    rw [h]
    have hne : (get_missing_required_files st.required_files).isEmpty = false := by
      cases hh : get_missing_required_files st.required_files with
      | nil => exact absurd hh hm
      | cons x xs => rfl
    rw [hne]
    simp

theorem c2_mesh_done_requires_completeness_witness :
    meshLoopBody (fun _ _ => true) (fun _ => "")
        ⟨⟨true, true, true, true, true, true, true⟩, []⟩ "done"
      = (⟨⟨true, true, true, true, true, true, true⟩, []⟩, StepOutcome.finished)
    ∧ meshLoopBody (fun _ _ => true) (fun _ => "") initManagerState "done"
      = (initManagerState, StepOutcome.looping) :=
  ⟨(c2_mesh_done_requires_completeness (fun _ _ => true) (fun _ => "")
      ⟨⟨true, true, true, true, true, true, true⟩, []⟩ "done" (by decide)).1 (by decide),
   (c2_mesh_done_requires_completeness (fun _ _ => true) (fun _ => "")
      initManagerState "done" (by decide)).2 (by decide)⟩

/-! ## Lower-casing lemmas for the registry -/

theorem toNat_ofNat_valid (n : Nat) (h : n.isValidChar) : (Char.ofNat n).toNat = n := by
  simp only [Char.ofNat, h, dif_pos, Char.ofNatAux, Char.toNat]
  rfl

theorem pyLowerChar_idem (c : Char) : pyLowerChar (pyLowerChar c) = pyLowerChar c := by
  unfold pyLowerChar
  by_cases h : 65 ≤ c.toNat ∧ c.toNat ≤ 90
  · rw [if_pos h]
    have hv : Nat.isValidChar (c.toNat + 32) := Or.inl (by omega)
    have ht := toNat_ofNat_valid _ hv
    rw [if_neg (by rw [ht]; omega)]
  · rw [if_neg h, if_neg h]

theorem pyLower_idem (s : String) : pyLower (pyLower s) = pyLower s := by
  unfold pyLower
  have hmap : (fun c => pyLowerChar (pyLowerChar c)) = pyLowerChar := funext pyLowerChar_idem
  show String.mk ((s.data.map pyLowerChar).map pyLowerChar) = String.mk (s.data.map pyLowerChar)
  rw [List.map_map]
  show String.mk (s.data.map (fun c => pyLowerChar (pyLowerChar c))) = _
  rw [hmap]

/-- C10 — confirmed: `register_plugin` stores the plugin under the
lower-cased solver name; `get_plugin` resolves a query and its lower-cased
form to the same plugin (lower-casing is idempotent, and lookups are done
on the lower-cased key); and when no plugin matches, the raised error's
message lists the currently registered solver names. -/
theorem c10_registry_case_insensitive {α : Type} (reg : List (String × α))
    (name s : String) (p : α) :
    lookupAssoc (pyLower name) (register_plugin reg name p) = some p
    ∧ (get_plugin reg s).toOption = (get_plugin reg (pyLower s)).toOption
    ∧ (lookupAssoc (pyLower s) reg = none →
        get_plugin reg s
          = Except.error ("No plugin found for solver '" ++ s ++ "'. " ++
              "Available solvers: " ++ String.intercalate ", " (reg.map (fun kv => kv.1)))) := by
  refine ⟨?_, ?_, ?_⟩
  · unfold register_plugin
    exact lookupAssoc_insertAssoc_self (pyLower name) p reg
  · unfold get_plugin
    rw [pyLower_idem]
    cases lookupAssoc (pyLower s) reg <;> rfl
  · intro h
    unfold get_plugin
    rw [h]

theorem c10_registry_case_insensitive_witness :
    lookupAssoc "openfoam" (register_plugin ([] : List (String × Nat)) "OpenFOAM" 7) = some 7
    ∧ (get_plugin [("openfoam", 7)] "OpenFOAM").toOption
        = (get_plugin [("openfoam", 7)] "openfoam").toOption
    ∧ get_plugin [("openfoam", 7)] "su2"
        = Except.error "No plugin found for solver 'su2'. Available solvers: openfoam" :=
  ⟨(c10_registry_case_insensitive ([] : List (String × Nat)) "OpenFOAM" "x" 7).1,
   (c10_registry_case_insensitive [("openfoam", 7)] "x" "OpenFOAM" 7).2.1,
   (c10_registry_case_insensitive [("openfoam", 7)] "x" "su2" 7).2.2 (by decide)⟩

end Whittle
